import Mathlib

/-!
Verification of the LoRa Edge SoC peripheral cross-validation harness.

Shallow embedding of the harness's pure reference models and of the
cycle-level behaviour of its bus drivers, translated from:
  * src/test/test_peripherals.py      (direct-override harness)
  * src/test/test_peripheral_e2e.py   (CPU-injection harness)
  * src/verify/gen_seal_golden.py     (seal golden-vector generator)

Machine integers are modelled as `ℕ` (Python integers are unbounded, so the
Python sources' `&`, `>>`, `<<`, `^` on non-negative values are exactly the
corresponding `ℕ` operations); signed quantities use `ℤ` with explicit
`% 2^32` where wrap-around matters.
-/

namespace PeriphHarness

/-! ## CRC-16/MODBUS reference models

Three textually identical copies exist in the repository; each is embedded
separately so they can be compared as functions. -/

/-- One iteration of the inner `for _ in range(8)` loop of `crc16_modbus`
(src/test/test_peripherals.py lines 64-68): shift right once, XOR-ing in
`0xA001` when the shifted-out (lowest) bit is 1. -/
def crc16_shift (crc : ℕ) : ℕ :=
  if crc &&& 1 ≠ 0 then (crc >>> 1) ^^^ 0xA001 else crc >>> 1

/-- Body of the outer `for byte in data` loop of `crc16_modbus`
(src/test/test_peripherals.py lines 62-68): XOR the byte into the
accumulator, then run the inner loop 8 times. -/
def crc16_feed (crc b : ℕ) : ℕ := crc16_shift^[8] (crc ^^^ b)

/-- `crc16_modbus` from src/test/test_peripherals.py lines 60-69. -/
def crc16_modbus (data : List ℕ) : ℕ := data.foldl crc16_feed 0xFFFF

/-- Inner-loop iteration of the `crc16_modbus` copy in
src/test/test_peripheral_e2e.py lines 57-61. -/
def crc16_shift_e2e (crc : ℕ) : ℕ :=
  if crc &&& 1 ≠ 0 then (crc >>> 1) ^^^ 0xA001 else crc >>> 1

/-- Outer-loop body of the `crc16_modbus` copy in
src/test/test_peripheral_e2e.py lines 55-61. -/
def crc16_feed_e2e (crc b : ℕ) : ℕ := crc16_shift_e2e^[8] (crc ^^^ b)

/-- `crc16_modbus` from src/test/test_peripheral_e2e.py lines 53-62. -/
def crc16_modbus_e2e (data : List ℕ) : ℕ := data.foldl crc16_feed_e2e 0xFFFF

/-- Inner-loop iteration of the `crc16_modbus` copy in
src/verify/gen_seal_golden.py lines 29-34. -/
def crc16_shift_golden (crc : ℕ) : ℕ :=
  if crc &&& 1 ≠ 0 then (crc >>> 1) ^^^ 0xA001 else crc >>> 1

/-- Outer-loop body of the `crc16_modbus` copy in
src/verify/gen_seal_golden.py lines 27-34. -/
def crc16_feed_golden (crc b : ℕ) : ℕ := crc16_shift_golden^[8] (crc ^^^ b)

/-- `crc16_modbus` from src/verify/gen_seal_golden.py lines 25-35. -/
def crc16_modbus_golden (data : List ℕ) : ℕ := data.foldl crc16_feed_golden 0xFFFF

/-- The CRC16-MODBUS algorithm as worded in the spec (§4.3): "accumulator
initialized to 0xFFFF; for each input byte, XOR into the low 8 bits of the
accumulator, then shift right 8 times, each time XOR-ing in the constant
0xA001 whenever the shifted-out bit is 1."  Written with `/` and `%`
arithmetic (the shifted-out bit is `crc % 2`) so that it is an independent
formulation to compare the code against. -/
def crc16_spec_shift (crc : ℕ) : ℕ :=
  if crc % 2 = 1 then (crc / 2) ^^^ 0xA001 else crc / 2

/-- The full spec-worded CRC16-MODBUS over a byte sequence. -/
def crc16_spec (data : List ℕ) : ℕ :=
  data.foldl (fun crc b => crc16_spec_shift^[8] (crc ^^^ b)) 0xFFFF

/-- `make_seal_bytes` from src/verify/gen_seal_golden.py lines 38-52:
the 9-byte seal serialization — one sensor-id byte, then the 32-bit value
little-endian, then the 32-bit monotonic count little-endian. -/
def make_seal_bytes (sensor_id value mono_count : ℕ) : List ℕ :=
  [ sensor_id &&& 0xFF,
    (value >>> 0) &&& 0xFF,
    (value >>> 8) &&& 0xFF,
    (value >>> 16) &&& 0xFF,
    (value >>> 24) &&& 0xFF,
    (mono_count >>> 0) &&& 0xFF,
    (mono_count >>> 8) &&& 0xFF,
    (mono_count >>> 16) &&& 0xFF,
    (mono_count >>> 24) &&& 0xFF ]

lemma crc16_shift_eq_spec_shift : crc16_shift = crc16_spec_shift := by
  funext crc
  have h1 : crc &&& 1 = crc % 2 := Nat.and_one_is_mod crc
  have h2 : crc >>> 1 = crc / 2 := by
    have := Nat.shiftRight_eq_div_pow crc 1
    simpa using this
  simp only [crc16_shift, crc16_spec_shift, h1, h2]
  rcases Nat.mod_two_eq_zero_or_one crc with h | h <;> simp [h]

/-- C3: for every byte sequence, `crc16_modbus` equals the spec-worded
reference definition of CRC16-MODBUS (init 0xFFFF, XOR byte into the low 8
bits, 8 right-shifts each XOR-ing 0xA001 exactly when the shifted-out bit
is 1), and the three copies of `crc16_modbus` in test_peripherals.py,
test_peripheral_e2e.py and gen_seal_golden.py are equal as functions. -/
theorem crc16_copies_agree_with_reference (data : List ℕ) :
    crc16_modbus data = crc16_spec data
    ∧ crc16_modbus_e2e data = crc16_modbus data
    ∧ crc16_modbus_golden data = crc16_modbus data := by
  refine ⟨?_, rfl, rfl⟩
  have hfeed : crc16_feed = fun crc b => crc16_spec_shift^[8] (crc ^^^ b) := by
    funext crc b
    simp [crc16_feed, crc16_shift_eq_spec_shift]
  simp only [crc16_modbus, crc16_spec, hfeed]

set_option maxRecDepth 10000 in
/-- C4: the CRC16-MODBUS of the 9-byte seal serialization is exactly
0x578C for inputs (0xAA, 0x00000000, 0) and exactly 0xE80E for inputs
(0xFF, 0xFFFFFFFF, 1) — the golden values asserted in
src/verify/gen_seal_golden.py lines 99-110. -/
theorem seal_golden_crc_vectors :
    crc16_modbus_golden (make_seal_bytes 0xAA 0x00000000 0) = 0x578C
    ∧ crc16_modbus_golden (make_seal_bytes 0xFF 0xFFFFFFFF 1) = 0xE80E := by
  constructor <;> decide

/-! ## Instruction synthesizer: immediate splitting -/

/-- Disjoint bitwise-or is addition: when the low `n` bits of the left
operand are zero, `|||` coincides with `+`.  Shared helper for the
bit-packing proofs below. -/
lemma lor_eq_add_of_lt : ∀ (n a b : ℕ), b < 2 ^ n → (a * 2 ^ n) ||| b = a * 2 ^ n + b := by
  intro n
  induction n with
  | zero =>
    intro a b hb
    have hb0 : b = 0 := by omega
    subst hb0
    simp
  | succ n ih =>
    intro a b hb
    have h1 : a * 2 ^ (n + 1) = Nat.bit false (a * 2 ^ n) := by
      simp [Nat.bit_val]; ring
    have h2 : b = Nat.bit b.bodd b.div2 := (Nat.bit_decomp b).symm
    rw [h1, h2, Nat.lor_bit]
    have hdiv : b.div2 < 2 ^ n := by
      rw [Nat.div2_val]
      omega
    rw [ih a b.div2 hdiv]
    have hbd : 2 * b.div2 + b.bodd.toNat = b := by
      have h := Nat.bit_decomp b
      rwa [Nat.bit_val] at h
    have hp : 2 ^ (n + 1) = 2 * 2 ^ n := by ring
    simp only [Nat.bit_val, Bool.false_or, Bool.toNat_false]
    omega

/-- The LUI/ADDI immediate split computed by `mmio_write32`
(src/test/test_peripheral_e2e.py lines 74-83):
`upper = (val >> 12) + ((val >> 11) & 1)` and `lower = val & 0xFFF`, with
`0x1000` subtracted from `lower` when `lower >= 0x800` (the ADDI addend is
signed).  The first component is the 20-bit LUI immediate as emitted
(`upper & 0xFFFFF`, the mask applied at `InstructionLUI(x1, upper & 0xFFFFF)`);
the second is the signed ADDI addend. -/
def mmio_write32_imms (val : ℕ) : ℕ × ℤ :=
  let v := val &&& 0xFFFFFFFF
  let upper := (v >>> 12) + ((v >>> 11) &&& 1)
  let lower := v &&& 0xFFF
  ( upper &&& 0xFFFFF,
    if 0x800 ≤ lower then (lower : ℤ) - 0x1000 else (lower : ℤ) )

/-- C1: for every 32-bit value, the LUI+ADDI pair emitted by `mmio_write32`
reconstructs the value exactly: `((upper <<< 12) + lower) mod 2^32 = val`,
including when the low 12 bits are ≥ 0x800 and when the upper-immediate
increment wraps past 20 bits. -/
theorem mmio_write32_split_reconstructs (val : ℕ) (h : val < 2 ^ 32) :
    ((((mmio_write32_imms val).1 <<< 12 : ℕ) : ℤ) + (mmio_write32_imms val).2) % 2 ^ 32
      = (val : ℤ) := by
  have hmask : val &&& 0xFFFFFFFF = val := by
    have h32 := Nat.and_pow_two_sub_one_eq_mod val 32
    norm_num at h32 ⊢
    rw [h32]
    omega
  have h12 : val >>> 12 = val / 4096 := by
    rw [Nat.shiftRight_eq_div_pow]
  have h11 : (val >>> 11) &&& 1 = val / 2048 % 2 := by
    rw [Nat.and_one_is_mod, Nat.shiftRight_eq_div_pow]
  have hlow : val &&& 0xFFF = val % 4096 := by
    have h' := Nat.and_pow_two_sub_one_eq_mod val 12
    norm_num at h' ⊢
    exact h'
  have hup : (val / 4096 + val / 2048 % 2) &&& 0xFFFFF
      = (val / 4096 + val / 2048 % 2) % 1048576 := by
    have h' := Nat.and_pow_two_sub_one_eq_mod (val / 4096 + val / 2048 % 2) 20
    norm_num at h' ⊢
    exact h'
  simp only [mmio_write32_imms, hmask, h12, h11, hlow, hup, Nat.shiftLeft_eq]
  norm_num
  by_cases hc : 2048 ≤ val % 4096 <;> simp only [hc, if_true, if_false, reduceIte] <;> omega

/-- C1 witness: the split reconstructs `0xFFFFF800`, the case where the low
12 bits are ≥ 0x800 and the incremented upper immediate wraps past 20 bits. -/
theorem mmio_write32_split_reconstructs_witness :
    (0xFFFFF800 : ℕ) < 2 ^ 32
    ∧ ((((mmio_write32_imms 0xFFFFF800).1 <<< 12 : ℕ) : ℤ)
        + (mmio_write32_imms 0xFFFFF800).2) % 2 ^ 32 = (0xFFFFF800 : ℕ) :=
  ⟨by norm_num, mmio_write32_split_reconstructs 0xFFFFF800 (by norm_num)⟩

/-- A single bit of a number is clear exactly when the corresponding
div-mod digit is zero.  Shared helper. -/
lemma and_two_pow_eq_zero_iff (x i : ℕ) : x &&& 2 ^ i = 0 ↔ x / 2 ^ i % 2 = 0 := by
  rw [Nat.and_two_pow, Nat.testBit_to_div_mod]
  rcases Nat.mod_two_eq_zero_or_one (x / 2 ^ i) with h | h <;> simp [h]

/-- Modelled from the spec: the CPU's ADDI interprets its 12-bit immediate
as signed (spec §4.1, "because the addend is interpreted as signed"); the
CPU itself is not under src/.  The 32-bit value stored in the destination
register of `ADDI x1, x0, imm12` is the immediate sign-extended from
bit 11. -/
def addi_sext12 (imm12 : ℕ) : ℕ :=
  if imm12 &&& 0x800 = 0 then imm12 else imm12 ||| 0xFFFFF000

/-- The 32-bit value actually stored by `mmio_write_small`
(src/test/test_peripheral_e2e.py lines 68-71): the argument is truncated to
12 bits (`val & 0xFFF`) and emitted as an ADDI immediate, which the CPU
sign-extends from bit 11. -/
def mmio_write_small_stored (val : ℕ) : ℕ := addi_sext12 (val &&& 0xFFF)

/-- An unsigned 32-bit argument fits a signed 12-bit immediate exactly when
it is below 0x800 or at least 0xFFFFF800 (the 32-bit two's-complement
encodings of -2048..2047). -/
def fits_signed12 (val : ℕ) : Prop := val < 0x800 ∨ 0xFFFFF800 ≤ val

/-- C9: `mmio_write_small` truncates its argument to 12 bits and the CPU
sign-extends it from bit 11, so for every 32-bit argument the stored value
equals the argument iff the argument fits a signed 12-bit immediate; in
particular for arguments in 0x800..0xFFF the stored value is the argument
OR 0xFFFFF000, not the argument itself. -/
theorem mmio_write_small_sign_extends (val : ℕ) (h : val < 2 ^ 32) :
    (mmio_write_small_stored val = val ↔ fits_signed12 val)
    ∧ (0x800 ≤ val → val ≤ 0xFFF →
        mmio_write_small_stored val = val ||| 0xFFFFF000) := by
  have hlow : val &&& 0xFFF = val % 4096 := by
    have h' := Nat.and_pow_two_sub_one_eq_mod val 12
    norm_num at h' ⊢
    exact h'
  have hbit : val % 4096 &&& 0x800 = 0 ↔ val % 4096 < 2048 := by
    have h' := and_two_pow_eq_zero_iff (val % 4096) 11
    norm_num at h'
    rw [h']
    omega
  have hor : ∀ y : ℕ, y < 4096 → y ||| 0xFFFFF000 = 0xFFFFF000 + y := by
    intro y hy
    rw [Nat.lor_comm]
    have h' := lor_eq_add_of_lt 12 0xFFFFF y (by norm_num; omega)
    norm_num at h' ⊢
    omega
  simp only [mmio_write_small_stored, addi_sext12, hlow, hbit]
  by_cases hc : val % 4096 < 2048
  · simp only [hc, if_true, fits_signed12]
    constructor
    · omega
    · intro h1 h2
      exfalso
      omega
  · simp only [hc, if_false, fits_signed12]
    rw [hor (val % 4096) (by omega)]
    constructor
    · omega
    · intro h1 h2
      rw [hor val (by omega)]
      omega

/-- C9 witness: at the concrete argument 0x800 (which does not fit a signed
12-bit immediate) the stored value is `0x800 ||| 0xFFFFF000`. -/
theorem mmio_write_small_sign_extends_witness :
    (0x800 : ℕ) < 2 ^ 32 ∧ (0x800 : ℕ) ≤ 0x800 ∧ (0x800 : ℕ) ≤ 0xFFF
    ∧ mmio_write_small_stored 0x800 = 0x800 ||| 0xFFFFF000 :=
  ⟨by norm_num, le_refl _, by norm_num,
    (mmio_write_small_sign_extends 0x800 (by norm_num)).2 (le_refl _) (by norm_num)⟩

/-! ## Seal three-phase read layout and decoder -/

/-- Modelled from the spec: the second word of the three-phase seal read is
`{sensor_id[7:0], monotonic_count[23:0]}` (spec §3 "Seal Record"; the
hardware serializer itself is not under src/, only its documented layout). -/
def seal_word2 (sensor_id mono : ℕ) : ℕ :=
  (sensor_id <<< 24) ||| (mono &&& 0xFFFFFF)

/-- Modelled from the spec: the third word of the three-phase seal read is
`{monotonic_count[31:24], crc16[15:0], 0x00}` (spec §3 "Seal Record"). -/
def seal_word3 (mono crc : ℕ) : ℕ :=
  ((mono >>> 24) <<< 24) ||| (crc <<< 8)

/-- The monotonic-count decoder used by both harnesses
(src/test/test_peripherals.py line 589 and src/test/test_peripheral_e2e.py
line 416): `mono = ((r2 >> 24) << 24) | (r1 & 0xFFFFFF)`, where `r1` is the
second and `r2` the third read word. -/
def decode_mono (r1 r2 : ℕ) : ℕ :=
  ((r2 >>> 24) <<< 24) ||| (r1 &&& 0xFFFFFF)

/-- C5: encode-then-decode round-trip — for every 32-bit monotonic count,
8-bit sensor id and 16-bit CRC, the harness decoder recovers the monotonic
count exactly from the second and third read words of the three-phase
layout. -/
theorem seal_mono_decode_roundtrip (m s c : ℕ)
    (hm : m < 2 ^ 32) (hs : s < 2 ^ 8) (hc : c < 2 ^ 16) :
    decode_mono (seal_word2 s m) (seal_word3 m c) = m := by
  have hand : ∀ x : ℕ, x &&& 0xFFFFFF = x % 16777216 := by
    intro x
    have h' := Nat.and_pow_two_sub_one_eq_mod x 24
    norm_num at h' ⊢
    exact h'
  have h2 : seal_word2 s m = s * 16777216 + m % 16777216 := by
    simp only [seal_word2, hand, Nat.shiftLeft_eq]
    have h' := lor_eq_add_of_lt 24 s (m % 16777216) (by norm_num; omega)
    norm_num at h' ⊢
    exact h'
  have hshr : m >>> 24 = m / 16777216 := by
    rw [Nat.shiftRight_eq_div_pow]
  have h3 : seal_word3 m c = m / 16777216 * 16777216 + c * 256 := by
    simp only [seal_word3, hshr, Nat.shiftLeft_eq]
    have h' := lor_eq_add_of_lt 24 (m / 16777216) (c * 256) (by norm_num; omega)
    norm_num at h' ⊢
    exact h'
  have hd1 : seal_word3 m c >>> 24 = m / 16777216 := by
    rw [h3, Nat.shiftRight_eq_div_pow]
    norm_num
    omega
  have hd2 : seal_word2 s m &&& 0xFFFFFF = m % 16777216 := by
    rw [h2, hand]
    omega
  rw [decode_mono, hd1, hd2, Nat.shiftLeft_eq]
  have h' := lor_eq_add_of_lt 24 (m / 16777216) (m % 16777216) (by norm_num; omega)
  norm_num at h' ⊢
  omega

/-- C5 witness: the round-trip at the concrete inputs m = 0xDEADBEEF,
s = 0xAA, c = 0x578C. -/
theorem seal_mono_decode_roundtrip_witness :
    (0xDEADBEEF : ℕ) < 2 ^ 32 ∧ (0xAA : ℕ) < 2 ^ 8 ∧ (0x578C : ℕ) < 2 ^ 16
    ∧ decode_mono (seal_word2 0xAA 0xDEADBEEF) (seal_word3 0xDEADBEEF 0x578C)
        = 0xDEADBEEF :=
  ⟨by norm_num, by norm_num, by norm_num,
    seal_mono_decode_roundtrip 0xDEADBEEF 0xAA 0x578C
      (by norm_num) (by norm_num) (by norm_num)⟩

/-! ## Rule B: read-window stability check -/

/-- The eight per-cycle samples of the read-data bus taken by
`test_read_stability_rule_b` (src/test/test_peripherals.py lines 958-962):
one sample per cycle of the 8-cycle read window, `rdata i` being the value
on the bus during cycle `i`. -/
def ruleB_samples (rdata : ℕ → ℕ) : List ℕ := (List.range 8).map rdata

/-- The Rule B stability assertion (src/test/test_peripherals.py line 968):
`all(s == samples[0] for s in samples)`. -/
def ruleB_pass (rdata : ℕ → ℕ) : Bool :=
  (ruleB_samples rdata).all (fun s => s == (ruleB_samples rdata).headD 0)

/-- C2: the Rule B check takes eight consecutive samples, one per cycle of
the 8-cycle read window, and fails if and only if some sample differs from
the first sample — a divergence during the window is never silently
tolerated. -/
theorem ruleB_fails_iff_divergence (rdata : ℕ → ℕ) :
    ruleB_pass rdata = false ↔ ∃ i, i < 8 ∧ rdata i ≠ rdata 0 := by
  have hhead : (ruleB_samples rdata).headD 0 = rdata 0 := rfl
  have h : ruleB_pass rdata = true ↔ ∀ i < 8, rdata i = rdata 0 := by
    simp only [ruleB_pass, hhead, List.all_eq_true, ruleB_samples, List.mem_map,
      List.mem_range, beq_iff_eq]
    constructor
    · intro hall i hi
      exact hall (rdata i) ⟨i, hi, rfl⟩
    · rintro hall x ⟨i, hi, rfl⟩
      exact hall i hi
  rw [Bool.eq_false_iff, Ne, h]
  push_neg
  constructor
  · rintro ⟨i, hi, hne⟩
    exact ⟨i, hi, hne⟩
  · rintro ⟨i, hi, hne⟩
    exact ⟨i, hi, hne⟩

/-! ## Address decode: unmapped slots return the all-ones sentinel -/

/-- `valid_slots = set(range(16))` from `test_address_decode_all_slots`
(src/test/test_peripherals.py line 902). -/
def valid_slots : List ℕ := List.range 16

/-- The address-decode check of `test_address_decode_all_slots`
(src/test/test_peripherals.py lines 896-909): read every slot 0..31 and
require the all-ones sentinel 0xFFFFFFFF from every slot outside
`valid_slots`; `readVal slot` is the value the DUT returns for `slot`. -/
def address_decode_check (readVal : ℕ → ℕ) : Bool :=
  (List.range 32).all
    (fun slot => decide (slot ∈ valid_slots) || (readVal slot == 0xFFFFFFFF))

/-- Modelled from the spec: "any read of an unmapped slot returns the
all-ones sentinel (0xFFFFFFFF)" (spec §3); the hardware address decoder is
not under src/, so the DUT side of the invariant is taken from the spec. -/
def unmapped_slot_read (_slot : ℕ) : ℕ := 0xFFFFFFFF

/-- C6: reads of unmapped slots yield the all-ones sentinel, and the
address-decode check — which reads every slot 0..31 — fails exactly when
some slot in 16..31 yields a value other than 0xFFFFFFFF, imposing no
sentinel requirement on slots 0..15. -/
theorem address_decode_sentinel (readVal : ℕ → ℕ) :
    (∀ slot, unmapped_slot_read slot = 0xFFFFFFFF)
    ∧ (address_decode_check readVal = false
        ↔ ∃ slot, 16 ≤ slot ∧ slot < 32 ∧ readVal slot ≠ 0xFFFFFFFF) := by
  refine ⟨fun _ => rfl, ?_⟩
  have h : address_decode_check readVal = true
      ↔ ∀ slot < 32, slot < 16 ∨ readVal slot = 0xFFFFFFFF := by
    simp only [address_decode_check, valid_slots, List.all_eq_true, List.mem_range,
      Bool.or_eq_true, decide_eq_true_eq, beq_iff_eq]
  rw [Bool.eq_false_iff, Ne, h]
  push_neg
  constructor
  · rintro ⟨slot, hlt, h16, hne⟩
    exact ⟨slot, by omega, hlt, hne⟩
  · rintro ⟨slot, h16, hlt, hne⟩
    exact ⟨slot, hlt, by omega, hne⟩

/-- C6 witness: the check passes on the spec-modelled unmapped-read
behaviour extended with arbitrary values on the mapped slots. -/
theorem address_decode_sentinel_witness :
    address_decode_check (fun slot => if slot < 16 then 0x1234 else 0xFFFFFFFF)
      = true := by
  rcases Bool.eq_false_or_eq_true
      (address_decode_check (fun slot => if slot < 16 then 0x1234 else 0xFFFFFFFF)) with
    ht | hf
  · exact ht
  · exfalso
    obtain ⟨slot, h16, _, hne⟩ :=
      (address_decode_sentinel (fun slot => if slot < 16 then 0x1234 else 0xFFFFFFFF)).2.mp hf
    exact hne (by rw [if_neg (by omega)])

/-! ## Busy-polling loops

Each polling loop reads a status register up to a fixed number of times and
breaks as soon as the polled busy bit clears.  `reads i` is the status value
returned by the `i`-th read of the loop.  A Python `for ... else` clause
turns bound exhaustion into `assert False`; a loop without an `else` clause
simply falls through to the next operation. -/

/-- The bounded poll shared by the harness loops: index of the first of
`bound` reads whose masked busy bit is clear (`if not (rd & mask): break`),
or `none` when all `bound` reads stay busy. -/
def poll_not_busy (reads : ℕ → ℕ) (mask bound : ℕ) : Option ℕ :=
  (List.range bound).find? (fun i => reads i &&& mask == 0)

/-- The per-byte busy poll of `test_crc_stress_rapid_fire`
(src/test/test_peripherals.py lines 263-269): 50 retries on busy bit 16,
with `else: assert False, "CRC engine stuck busy"` on exhaustion. -/
def crc_stress_poll (reads : ℕ → ℕ) : Except String Unit :=
  match poll_not_busy reads 0x10000 50 with
  | some _ => Except.ok ()
  | none => Except.error "CRC engine stuck busy"

/-- The per-byte busy poll of `test_crc_known_vectors`
(src/test/test_peripherals.py lines 213-217): 20 retries on busy bit 16,
with no `else` clause — on exhaustion the test proceeds to the next
operation. -/
def crc_known_vectors_poll (reads : ℕ → ℕ) : Except String Unit :=
  match poll_not_busy reads 0x10000 20 with
  | some _ => Except.ok ()
  | none => Except.ok ()

/-- The commit busy poll of `test_seal_commit_mono_increment`
(src/test/test_peripherals.py lines 576-582): 500 retries on busy bit 0,
with `else: assert False, f"Seal commit {i} stuck busy"` on exhaustion. -/
def seal_commit_poll (reads : ℕ → ℕ) : Except String Unit :=
  match poll_not_busy reads 1 500 with
  | some _ => Except.ok ()
  | none => Except.error "Seal commit stuck busy"

/-- C7 counterexample: with the status register stuck busy forever, the
poll loop of `test_crc_known_vectors` exhausts its 20-retry bound yet does
not fail — it continues silently to the next operation, contradicting the
claim that every busy-polling loop reports a stuck-engine fault. -/
theorem crc_known_vectors_poll_silent :
    poll_not_busy (fun _ => 0x10000) 0x10000 20 = none
    ∧ crc_known_vectors_poll (fun _ => 0x10000) = Except.ok () := by
  constructor <;> rfl

/-- C7 amended: every cited busy-polling loop runs for an explicitly
bounded number of retries, and the stress-fire and seal-commit loops report
a stuck-engine fault on exhaustion, but the known-vectors loop falls
through silently to the next operation instead of failing. -/
theorem poll_loops_bounded (reads : ℕ → ℕ)
    (hstress : poll_not_busy reads 0x10000 50 = none)
    (hseal : poll_not_busy reads 1 500 = none) :
    crc_stress_poll reads = Except.error "CRC engine stuck busy"
    ∧ seal_commit_poll reads = Except.error "Seal commit stuck busy"
    ∧ crc_known_vectors_poll reads = Except.ok () := by
  refine ⟨?_, ?_, ?_⟩
  · rw [crc_stress_poll, hstress]
  · rw [seal_commit_poll, hseal]
  · rw [crc_known_vectors_poll]
    rcases hfind : poll_not_busy reads 0x10000 20 with _ | i <;> rfl

set_option maxRecDepth 10000 in
/-- C7 amended witness: with a status value whose bit 16 and bit 0 are both
permanently set, both fault-reporting loops exhaust their bounds and fail
while the known-vectors loop returns silently. -/
theorem poll_loops_bounded_witness :
    poll_not_busy (fun _ => 0x10001) 0x10000 50 = none
    ∧ poll_not_busy (fun _ => 0x10001) 1 500 = none
    ∧ crc_stress_poll (fun _ => 0x10001) = Except.error "CRC engine stuck busy"
    ∧ seal_commit_poll (fun _ => 0x10001) = Except.error "Seal commit stuck busy"
    ∧ crc_known_vectors_poll (fun _ => 0x10001) = Except.ok () := by
  refine ⟨rfl, rfl, ?_⟩
  have h := poll_loops_bounded (fun _ => 0x10001) rfl rfl
  exact ⟨h.1, h.2.1, h.2.2⟩

/-! ## BusMaster: cycle-level driver traces

`BusMaster` (src/test/test_peripherals.py lines 75-152) drives the override
registers of the testbench.  Each operation is embedded as a state
transformer returning the final signal state together with the per-clock
trace: one entry per `await ClockCycles(clk, 1)`, holding the signal values
asserted during that cycle.  `write_n`/`read_n` are the 2-bit active-low
strobes (`0b11` idle, `0b10` active word access). -/

structure BusSignals where
  bus_override : ℕ
  write_n : ℕ
  read_n : ℕ
  read_complete : ℕ
  addr : ℕ
  wdata : ℕ
deriving DecidableEq

/-- `BusMaster._slot_addr` (lines 87-88): `{1'b1, 20'b0, slot[4:0], 2'b00}`. -/
def slot_addr (slot : ℕ) : ℕ := (1 <<< 27) ||| (slot <<< 2)

/-- `BusMaster.enable` (lines 90-98): activate override mode with all
strobes idle, then wait one cycle. -/
def bus_enable (s : BusSignals) : BusSignals × List BusSignals :=
  let s1 : BusSignals :=
    { s with bus_override := 1, write_n := 3, read_n := 3, read_complete := 0,
             addr := 0, wdata := 0 }
  (s1, [s1])

/-- `BusMaster.write` (lines 105-114): assert address/data and the write
strobe for one cycle, then deassert and wait one more cycle. -/
def bus_write (s : BusSignals) (slot data : ℕ) : BusSignals × List BusSignals :=
  let s1 := { s with addr := slot_addr slot, wdata := data,
                     write_n := 2, read_n := 3 }
  let s2 := { s1 with write_n := 3 }
  (s2, [s1, s2])

/-- `BusMaster.read` (lines 116-137): assert the read strobe, wait 2 cycles
(force + settle, the data is sampled after these two), hold 6 more cycles
(8 nibble clocks in total), pulse `read_complete` for one cycle, then
deassert everything and wait one final cycle. -/
def bus_read (s : BusSignals) (slot : ℕ) : BusSignals × List BusSignals :=
  let s1 := { s with addr := slot_addr slot, write_n := 3, read_n := 2 }
  let s2 := { s1 with read_complete := 1 }
  let s3 := { s2 with read_complete := 0, read_n := 3 }
  (s3, [s1, s1, s1, s1, s1, s1, s1, s1, s2, s3])

/-- `BusMaster.read_fast` (lines 139-152): read strobe for 2 cycles with no
completion pulse, then deassert and wait one cycle. -/
def bus_read_fast (s : BusSignals) (slot : ℕ) : BusSignals × List BusSignals :=
  let s1 := { s with addr := slot_addr slot, write_n := 3, read_n := 2 }
  let s2 := { s1 with read_n := 3 }
  (s2, [s1, s1, s2])

/-- All override strobes de-asserted, so the alternate (CPU) driver can
take over. -/
def strobes_idle (s : BusSignals) : Prop :=
  s.write_n = 3 ∧ s.read_n = 3 ∧ s.read_complete = 0

/-- C8: `BusMaster.write` asserts the write strobe for exactly one cycle;
`BusMaster.read` holds the read strobe with no completion pulse for the
8-cycle read window (2 force/settle + 6 hold), pulses `read_complete` for
exactly one cycle (cycle 8, strobe still held), releases one cycle later
(cycle 9); and every operation returns with write strobe, read strobe and
`read_complete` all de-asserted. -/
theorem busmaster_protocol_cycles (s : BusSignals) (slot data : ℕ)
    (h : s.read_complete = 0) :
    ((bus_write s slot data).2.countP (fun c => c.write_n != 3) = 1
      ∧ strobes_idle (bus_write s slot data).1)
    ∧ (((bus_read s slot).2.take 8).all
          (fun c => c.read_n == 2 && c.read_complete == 0) = true
      ∧ (bus_read s slot).2.countP (fun c => c.read_complete != 0) = 1
      ∧ (bus_read s slot).2.length = 10
      ∧ ((bus_read s slot).2[8]?.map fun c => (c.read_n, c.read_complete))
          = some (2, 1)
      ∧ ((bus_read s slot).2[9]?.map fun c => (c.read_n, c.read_complete))
          = some (3, 0)
      ∧ strobes_idle (bus_read s slot).1)
    ∧ strobes_idle (bus_read_fast s slot).1
    ∧ strobes_idle (bus_enable s).1 := by
  obtain ⟨o, w, r, rc, a, d⟩ := s
  simp only [BusSignals.mk.injEq] at h ⊢
  subst h
  simp [bus_write, bus_read, bus_read_fast, bus_enable, strobes_idle,
    List.countP_cons, List.countP_nil]

/-- C8 witness: the protocol cycle counts at the concrete post-`enable`
state (all strobes idle) for slot 0xB and data 0xDEADBEEF. -/
theorem busmaster_protocol_cycles_witness :
    (BusSignals.mk 1 3 3 0 0 0).read_complete = 0
    ∧ strobes_idle (bus_write (BusSignals.mk 1 3 3 0 0 0) 0xB 0xDEADBEEF).1 :=
  ⟨rfl, (busmaster_protocol_cycles (BusSignals.mk 1 3 3 0 0 0) 0xB 0xDEADBEEF
    rfl).1.2⟩

/-! ## safe_int: X/Z-tolerant signal sampling

A cocotb signal value prints as a binary string over '0', '1', 'x', 'z',
'X', 'Z'.  `_safe_int` (src/test/test_peripherals.py lines 27-34) first
tries the direct integer conversion, which raises `ValueError` when the
value contains X or Z bits; the except-branch replaces every X/Z character
by '0' and parses the result as binary. -/

/-- A character standing for an unresolved (X or Z) bit. -/
def is_xz (c : Char) : Bool := c == 'x' || c == 'z' || c == 'X' || c == 'Z'

/-- A resolved binary digit. -/
def is_bin_digit (c : Char) : Bool := c == '0' || c == '1'

/-- The `.replace(...)` chain of `_safe_int` (line 33): every X/Z
character becomes '0'. -/
def replace_xz (s : List Char) : List Char :=
  s.map fun c => if is_xz c then '0' else c

/-- `int(s, 2)` on a resolved binary string. -/
def int_of_binary (s : List Char) : ℕ :=
  s.foldl (fun acc c => 2 * acc + (if c == '1' then 1 else 0)) 0

/-- `int(signal.value)` (line 30): raises `ValueError` — modelled as
`none` — exactly when the value contains X or Z bits. -/
def int_of_signal (s : List Char) : Option ℕ :=
  if s.any is_xz then none else some (int_of_binary s)

/-- `_safe_int` (src/test/test_peripherals.py lines 27-34). -/
def safe_int (s : List Char) : ℕ :=
  match int_of_signal s with
  | some v => v
  | none => int_of_binary (replace_xz s)

/-- C10: `_safe_int` is total on every signal value — the direct conversion
fails exactly when X/Z bits are present, in which case every X/Z character
is replaced by '0' and the string parses as binary, so sampling never
propagates an exception and unresolved bits are silently reported as 0. -/
theorem safe_int_total (s : List Char)
    (halpha : ∀ c ∈ s, is_bin_digit c = true ∨ is_xz c = true) :
    (int_of_signal s = none ↔ s.any is_xz = true)
    ∧ safe_int s = int_of_binary (replace_xz s)
    ∧ (replace_xz s).all is_bin_digit = true := by
  have hrep : s.any is_xz = false → replace_xz s = s := by
    intro hno
    rw [List.any_eq_false] at hno
    unfold replace_xz
    have hpt : ∀ c ∈ s, (if is_xz c then '0' else c) = id c := by
      intro c hc
      have hf := hno c hc
      simp only [Bool.not_eq_true] at hf
      simp [hf]
    rw [List.map_congr_left hpt, List.map_id]
  refine ⟨?_, ?_, ?_⟩
  · by_cases hx : s.any is_xz <;> simp [int_of_signal, hx]
  · by_cases hx : s.any is_xz
    · simp [safe_int, int_of_signal, hx]
    · simp only [Bool.not_eq_true] at hx
      simp [safe_int, int_of_signal, hx, hrep hx]
  · rw [List.all_eq_true]
    rintro x hx
    rw [replace_xz, List.mem_map] at hx
    obtain ⟨c, hc, rfl⟩ := hx
    by_cases hxz : is_xz c = true
    · simp [hxz, is_bin_digit]
    · rcases halpha c hc with hb | hb
      · simpa [hxz] using hb
      · exact absurd hb hxz

/-- C10 witness: on the concrete signal value "1x0Z" the direct conversion
fails and `_safe_int` resolves the X and Z bits to 0, returning 8. -/
theorem safe_int_total_witness :
    (∀ c ∈ ['1', 'x', '0', 'Z'], is_bin_digit c = true ∨ is_xz c = true)
    ∧ safe_int ['1', 'x', '0', 'Z'] = int_of_binary (replace_xz ['1', 'x', '0', 'Z'])
    ∧ safe_int ['1', 'x', '0', 'Z'] = 8 :=
  ⟨by decide, (safe_int_total ['1', 'x', '0', 'Z'] (by decide)).2.1, by decide⟩

end PeriphHarness
